import Mathlib

/-!
Verification of the pure-converse chat backend: a shallow embedding of the
Supabase schema (migrations under supabase/migrations), the plpgsql stored
procedures (create_friend_conversation, create_group_conversation,
kick_group_member, delete_group_conversation, block_user), and the client-side
operations (sendFriendRequest, addReaction, endCall, handleDecline, the
encryption round trip from src/lib/encryption.ts).

The database is modelled as lists of rows, one list per table, with the
declared CHECK and UNIQUE constraints enforced on every insert/update and
row-level-security (RLS) policies applied to client-issued statements.
Generated ids (gen_random_uuid in the schema) are modelled by a counter
`nextId`; a plpgsql function body is one transaction, so an error from any
statement aborts the whole call and leaves the database unchanged (the
`Except` result carries no state on error).
-/

namespace PureConverse

/-- Row of public.profiles (columns used by the claims). -/
structure ProfileRow where
  id : Nat
  username : String
  deriving Repr, DecidableEq

/-- Row of public.friend_requests.  The table is created with
CHECK (status IN ('pending', 'accepted', 'rejected')) and
UNIQUE(sender_id, receiver_id); blocked_at is added by a later migration. -/
structure FriendRequestRow where
  id : Nat
  sender_id : Nat
  receiver_id : Nat
  status : String
  blocked_at : Option Nat
  deriving Repr, DecidableEq

/-- Row of public.conversations, CHECK (type IN ('direct', 'group')). -/
structure ConversationRow where
  id : Nat
  name : Option String
  ctype : String
  created_by : Nat
  deriving Repr, DecidableEq

/-- Row of public.conversation_participants, UNIQUE(conversation_id, user_id). -/
structure ParticipantRow where
  id : Nat
  conversation_id : Nat
  user_id : Nat
  deriving Repr, DecidableEq

/-- Row of public.messages (columns used by the claims). -/
structure MessageRow where
  id : Nat
  conversation_id : Nat
  sender_id : Nat
  content : String
  deriving Repr, DecidableEq

/-- Row of public.message_reactions, UNIQUE(message_id, user_id, emoji),
message_id REFERENCES messages ON DELETE CASCADE. -/
structure ReactionRow where
  id : Nat
  message_id : Nat
  user_id : Nat
  emoji : String
  deriving Repr, DecidableEq

/-- Row of public.calls, CHECK (status IN ('pending','active','ended','missed')),
conversation_id REFERENCES conversations ON DELETE CASCADE. -/
structure CallRow where
  id : Nat
  conversation_id : Nat
  initiator_id : Nat
  status : String
  started_at : Nat
  ended_at : Option Nat
  duration_seconds : Nat
  deriving Repr, DecidableEq

/-- Row of public.call_participants, UNIQUE(call_id, user_id),
call_id REFERENCES calls ON DELETE CASCADE. -/
structure CallParticipantRow where
  id : Nat
  call_id : Nat
  user_id : Nat
  left_at : Option Nat
  deriving Repr, DecidableEq

/-- The database state: one list per table plus the id generator. -/
structure Db where
  profiles : List ProfileRow
  friend_requests : List FriendRequestRow
  conversations : List ConversationRow
  conversation_participants : List ParticipantRow
  messages : List MessageRow
  message_reactions : List ReactionRow
  calls : List CallRow
  call_participants : List CallParticipantRow
  nextId : Nat
  deriving Repr, DecidableEq

/-- Errors surfaced by the storage layer: plpgsql RAISE EXCEPTION, CHECK
constraint violations, UNIQUE constraint violations, and RLS rejections. -/
inductive DbError where
  | raiseException : String → DbError
  | checkViolation : String → DbError
  | uniqueViolation : String → DbError
  | rlsViolation : String → DbError
  deriving Repr, DecidableEq

/-- CHECK (status IN ('pending', 'accepted', 'rejected')) on friend_requests;
no migration ever extends this list. -/
def friendRequestStatusAllowed (s : String) : Bool :=
  s = "pending" || s = "accepted" || s = "rejected"

/-- CHECK (type IN ('direct', 'group')) on conversations. -/
def conversationTypeAllowed (s : String) : Bool :=
  s = "direct" || s = "group"

/-- CHECK (status IN ('pending', 'active', 'ended', 'missed')) on calls;
note that 'declined' is not in the list. -/
def callStatusAllowed (s : String) : Bool :=
  s = "pending" || s = "active" || s = "ended" || s = "missed"

/-- String.prototype.trim as used by the client (sendFriendRequest): strips
leading and trailing whitespace (executable model of the builtin). -/
def strTrim (s : String) : String :=
  ⟨((s.data.dropWhile Char.isWhitespace).reverse.dropWhile
      Char.isWhitespace).reverse⟩

/-- Postgres trim(text) as used by create_group_conversation: with no
explicit character argument it strips only SPACE characters from both ends —
a tab or newline is kept, unlike String.prototype.trim. -/
def sqlTrim (s : String) : String :=
  ⟨((s.data.dropWhile (fun c => c = ' ')).reverse.dropWhile
      (fun c => c = ' ')).reverse⟩

/-- INSERT INTO public.friend_requests, enforcing the status CHECK and the
UNIQUE(sender_id, receiver_id) constraint. -/
def insertFriendRequest (db : Db) (sender receiver : Nat) (status : String)
    (blocked_at : Option Nat) : Except DbError Db :=
  if ¬ friendRequestStatusAllowed status then
    .error (.checkViolation "friend_requests_status_check")
  else if db.friend_requests.any
      (fun r => r.sender_id = sender && r.receiver_id = receiver) then
    .error (.uniqueViolation "friend_requests_sender_id_receiver_id_key")
  else
    .ok { db with
      friend_requests := db.friend_requests ++
        [⟨db.nextId, sender, receiver, status, blocked_at⟩],
      nextId := db.nextId + 1 }

/-- INSERT INTO public.conversations, enforcing the type CHECK; returns the
generated id. -/
def insertConversation (db : Db) (ctype : String) (name : Option String)
    (created_by : Nat) : Except DbError (Db × Nat) :=
  if ¬ conversationTypeAllowed ctype then
    .error (.checkViolation "conversations_type_check")
  else
    .ok ({ db with
      conversations := db.conversations ++ [⟨db.nextId, name, ctype, created_by⟩],
      nextId := db.nextId + 1 }, db.nextId)

/-- INSERT INTO public.conversation_participants, enforcing
UNIQUE(conversation_id, user_id). -/
def insertConversationParticipant (db : Db) (convId userId : Nat) :
    Except DbError Db :=
  if db.conversation_participants.any
      (fun p => p.conversation_id = convId && p.user_id = userId) then
    .error (.uniqueViolation "conversation_participants_conversation_id_user_id_key")
  else
    .ok { db with
      conversation_participants := db.conversation_participants ++
        [⟨db.nextId, convId, userId⟩],
      nextId := db.nextId + 1 }

/-- EXISTS (SELECT 1 FROM public.friend_requests WHERE status = 'accepted'
AND ((sender_id = a AND receiver_id = b) OR (sender_id = b AND receiver_id = a))),
the friendship test used by the stored procedures. -/
def isFriendAccepted (db : Db) (a b : Nat) : Bool :=
  db.friend_requests.any (fun r => r.status = "accepted" &&
    ((r.sender_id = a && r.receiver_id = b) ||
     (r.sender_id = b && r.receiver_id = a)))

/-- Membership test: user has a conversation_participants row for the
conversation. -/
def userParticipates (db : Db) (convId userId : Nat) : Bool :=
  db.conversation_participants.any
    (fun p => p.conversation_id = convId && p.user_id = userId)

/-- The existing-conversation lookup of create_friend_conversation
(migration 20250723200938): SELECT c.id FROM conversations c WHERE
c.type = 'direct' AND c.id IN (conversations of a INTERSECT conversations
of b); SELECT INTO takes the first matching row. -/
def directConversationLookup (db : Db) (a b : Nat) : Option ConversationRow :=
  db.conversations.find? (fun c =>
    c.ctype = "direct" && userParticipates db c.id a && userParticipates db c.id b)

/-- public.create_friend_conversation(friend_id), the version from migration
20250723200938 (SECURITY DEFINER, so RLS does not apply inside the body):
validates friendship, looks up an existing direct conversation containing both
users, otherwise inserts the conversation and both participant rows.  The body
is one transaction: any raised error leaves the database unchanged. -/
def create_friend_conversation (db : Db) (current_user_id friend_id : Nat) :
    Except DbError (Db × Nat) :=
  if ¬ isFriendAccepted db current_user_id friend_id then
    .error (.raiseException "Users are not friends")
  else
    match directConversationLookup db current_user_id friend_id with
    | some c => .ok (db, c.id)
    | none => do
      let (db1, convId) ← insertConversation db "direct" none current_user_id
      let db2 ← insertConversationParticipant db1 convId current_user_id
      let db3 ← insertConversationParticipant db2 convId friend_id
      .ok (db3, convId)

/-- public.block_user(user_id_to_block) from migration 20250723211830:
UPDATE friend_requests SET status = 'blocked', blocked_at = now() for the pair
in either direction; IF NOT FOUND, INSERT a blocked row.  Both the UPDATE and
the INSERT are subject to the status CHECK constraint of the table. -/
def block_user (db : Db) (current_user_id user_id_to_block : Nat) (now : Nat) :
    Except DbError Db :=
  let matched := db.friend_requests.filter (fun r =>
    (r.sender_id = current_user_id && r.receiver_id = user_id_to_block) ||
    (r.sender_id = user_id_to_block && r.receiver_id = current_user_id))
  if matched.isEmpty then
    insertFriendRequest db current_user_id user_id_to_block "blocked" (some now)
  else
    if ¬ friendRequestStatusAllowed "blocked" then
      .error (.checkViolation "friend_requests_status_check")
    else
      .ok { db with friend_requests := db.friend_requests.map (fun r =>
        if (r.sender_id = current_user_id && r.receiver_id = user_id_to_block) ||
           (r.sender_id = user_id_to_block && r.receiver_id = current_user_id) then
          { r with status := "blocked", blocked_at := some now }
        else r) }

/-- The participant-insertion loop of create_group_conversation: FOR friend_id
IN SELECT unnest(friend_ids) LOOP INSERT ... END LOOP, each insert subject to
the UNIQUE constraint. -/
def insertParticipants (db : Db) (convId : Nat) (users : List Nat) :
    Except DbError Db :=
  users.foldlM (fun d u => insertConversationParticipant d convId u) db

/-- public.create_group_conversation(group_name_param, friend_ids) from the
group-creation migration: validates the name after Postgres trim
(space-stripping only), the friend count (1 to 5; array_length of an empty
array is NULL in Postgres, which the code treats like 0), and that every
listed id is an accepted friend of the caller; then inserts the conversation,
the creator participant row, and one participant row per listed friend, all
in one transaction. -/
def create_group_conversation (db : Db) (current_user_id : Nat)
    (group_name_param : String) (friend_ids : List Nat) :
    Except DbError (Db × Nat) :=
  if sqlTrim group_name_param = "" then
    .error (.raiseException "Group name cannot be empty")
  else if friend_ids.isEmpty then
    .error (.raiseException "At least one friend must be selected")
  else if friend_ids.length > 5 then
    .error (.raiseException "Maximum 5 friends allowed")
  else if friend_ids.any (fun f => ¬ isFriendAccepted db current_user_id f) then
    .error (.raiseException "Selected user is not a friend")
  else do
    let (db1, convId) ←
      insertConversation db "group" (some (sqlTrim group_name_param)) current_user_id
    let db2 ← insertConversationParticipant db1 convId current_user_id
    let db3 ← insertParticipants db2 convId friend_ids
    .ok (db3, convId)

/-- The creator check shared by kick_group_member and delete_group_conversation:
SELECT (created_by = current_user_id) INTO is_group_creator FROM conversations
WHERE id = conversation_id_param AND type = 'group'.  SELECT INTO with no
matching row sets the variable to NULL, modelled as `none`. -/
def isGroupCreatorCheck (db : Db) (convId currentUser : Nat) : Option Bool :=
  (db.conversations.find? (fun c => c.id = convId && c.ctype = "group")).map
    (fun c => c.created_by = currentUser)

/-- public.kick_group_member(conversation_id_param, member_id_param):
IF NOT is_group_creator THEN RAISE — in plpgsql a NULL condition is treated as
false, so the guard only fires when the check evaluated to FALSE (the
conversation is a group and the caller is not its creator); then the
self-kick guard compares the target to the caller; then the participant row
is deleted. -/
def kick_group_member (db : Db) (current_user_id conversation_id_param
    member_id_param : Nat) : Except DbError Db :=
  if isGroupCreatorCheck db conversation_id_param current_user_id = some false then
    .error (.raiseException "Only group creator can kick members")
  else if member_id_param = current_user_id then
    .error (.raiseException "Group creator cannot kick themselves")
  else
    .ok { db with conversation_participants :=
      db.conversation_participants.filter (fun p =>
        ¬ (p.conversation_id = conversation_id_param &&
           p.user_id = member_id_param)) }

/-- public.delete_group_conversation(conversation_id_param): the same
NULL-tolerant creator guard, then DELETE all participants of the conversation,
DELETE all its messages (message deletion cascades to message_reactions via
ON DELETE CASCADE), then DELETE the conversation row (which cascades to calls
and call_participants of the conversation). -/
def delete_group_conversation (db : Db) (current_user_id
    conversation_id_param : Nat) : Except DbError Db :=
  if isGroupCreatorCheck db conversation_id_param current_user_id = some false then
    .error (.raiseException "Only group creator can delete the group")
  else
    let deletedCalls := db.calls.filter
      (fun c => c.conversation_id = conversation_id_param)
    .ok { db with
      conversation_participants := db.conversation_participants.filter
        (fun p => ¬ p.conversation_id = conversation_id_param),
      message_reactions := db.message_reactions.filter (fun r =>
        ¬ db.messages.any (fun m =>
          m.id = r.message_id && m.conversation_id = conversation_id_param)),
      messages := db.messages.filter
        (fun m => ¬ m.conversation_id = conversation_id_param),
      conversations := db.conversations.filter
        (fun c => ¬ c.id = conversation_id_param),
      calls := db.calls.filter
        (fun c => ¬ c.conversation_id = conversation_id_param),
      call_participants := db.call_participants.filter (fun cp =>
        ¬ deletedCalls.any (fun c => c.id = cp.call_id)) }

/-- Outcome of the client-side sendFriendRequest flow in AddFriend. -/
inductive SendRequestResult where
  | userNotFound
  | selfAdd
  | requestExists
  | success
  | insertError : DbError → SendRequestResult
  deriving Repr, DecidableEq

/-- All friend_requests rows between the pair in either direction, the rows
matched by the or-filter of the client existing-request query. -/
def pairRequests (db : Db) (a b : Nat) : List FriendRequestRow :=
  db.friend_requests.filter (fun r =>
    (r.sender_id = a && r.receiver_id = b) ||
    (r.sender_id = b && r.receiver_id = a))

/-- sendFriendRequest from the AddFriend component: resolves the profile by
trimmed username (.single() on a UNIQUE column, so the first match), rejects a
self-add, then queries for an existing request between the pair in either
direction with no status filter (.single() yields a row exactly when one row
matches), and only if none is found inserts a pending request owned by the
sender. -/
def sendFriendRequest (db : Db) (userId : Nat) (usernameToAdd : String) :
    SendRequestResult × Db :=
  match db.profiles.find? (fun p => p.username = strTrim usernameToAdd) with
  | none => (.userNotFound, db)
  | some targetUser =>
    if targetUser.id = userId then (.selfAdd, db)
    else if (pairRequests db userId targetUser.id).length = 1 then
      (.requestExists, db)
    else
      match insertFriendRequest db userId targetUser.id "pending" none with
      | .ok db1 => (.success, db1)
      | .error e => (.insertError e, db)

/-- The grouped reaction entries the MessageDisplay client keeps in its
`reactions` state: rows of one message are folded into one entry per emoji,
keeping the id and user_id of the FIRST row with that emoji and a count. -/
structure GroupedReaction where
  id : Nat
  emoji : String
  user_id : Nat
  count : Nat
  deriving Repr, DecidableEq

/-- fetchReactions grouping: reactionMap keyed by emoji, in first-seen order;
an existing entry only has its count bumped, so id and user_id stay those of
the first row with that emoji. -/
def groupReactions (rows : List ReactionRow) : List GroupedReaction :=
  rows.foldl (fun acc r =>
    if acc.any (fun g => g.emoji = r.emoji) then
      acc.map (fun g =>
        if g.emoji = r.emoji then { g with count := g.count + 1 } else g)
    else
      acc ++ [⟨r.id, r.emoji, r.user_id, 1⟩]) []

/-- Outcome of the client addReaction flow. -/
inductive ReactResult where
  | removed
  | added
  | failed : DbError → ReactResult
  deriving Repr, DecidableEq

/-- The RLS WITH CHECK of the message_reactions insert policy: the message
must belong to a conversation the acting user participates in. -/
def canReact (db : Db) (messageId userId : Nat) : Bool :=
  db.messages.any (fun m => m.id = messageId &&
    userParticipates db m.conversation_id userId)

/-- INSERT INTO public.message_reactions, enforcing the RLS insert policy and
UNIQUE(message_id, user_id, emoji). -/
def insertReaction (db : Db) (messageId userId : Nat) (emoji : String) :
    Except DbError Db :=
  if ¬ canReact db messageId userId then
    .error (.rlsViolation "message_reactions_insert_policy")
  else if db.message_reactions.any (fun r =>
      r.message_id = messageId && r.user_id = userId && r.emoji = emoji) then
    .error (.uniqueViolation "message_reactions_message_id_user_id_emoji_key")
  else
    .ok { db with
      message_reactions := db.message_reactions ++
        [⟨db.nextId, messageId, userId, emoji⟩],
      nextId := db.nextId + 1 }

/-- removeReaction from MessageDisplay: DELETE FROM message_reactions WHERE
id = reactionId AND user_id = currentUser (the delete RLS policy also filters
to auth.uid() = user_id). -/
def removeReaction (db : Db) (reactionId userId : Nat) : Db :=
  { db with message_reactions := db.message_reactions.filter (fun r =>
      ¬ (r.id = reactionId && r.user_id = userId)) }

/-- addReaction from MessageDisplay: looks for the clicked emoji among the
GROUPED reaction entries of the message, matching only when the group entry
both carries this emoji and has the current user as its (first-row) user_id;
on a match it removes that row, otherwise it inserts a new reaction row. -/
def addReaction (db : Db) (messageId userId : Nat) (emoji : String) :
    ReactResult × Db :=
  let rows := db.message_reactions.filter (fun r => r.message_id = messageId)
  let reactions := groupReactions rows
  match reactions.find? (fun r => r.emoji = emoji && r.user_id = userId) with
  | some existing => (.removed, removeReaction db existing.id userId)
  | none =>
    match insertReaction db messageId userId emoji with
    | .ok db1 => (.added, db1)
    | .error e => (.failed e, db)

/-- fetchParticipants in CallInterface: the call_participants rows of the call
with left_at IS NULL. -/
def fetchActiveParticipants (db : Db) (callId : Nat) : List CallParticipantRow :=
  db.call_participants.filter (fun cp => cp.call_id = callId && cp.left_at = none)

/-- endCall in CallInterface: sets left_at on the caller's own participant
rows (the call_participants RLS policy restricts updates to
auth.uid() = user_id, which the explicit .eq filter already matches), then, if
the fetched active-participant list minus the caller is empty, issues
UPDATE calls SET status = 'ended', ended_at = now WHERE id = callId — an
update the calls RLS policy (Users can update calls they initiated) restricts
to rows with initiator_id = caller.  duration_seconds is never written. -/
def endCall (db : Db) (callId userId now : Nat) : Db :=
  let participants := fetchActiveParticipants db callId
  let db1 := { db with call_participants := db.call_participants.map (fun cp =>
    if cp.call_id = callId && cp.user_id = userId then
      { cp with left_at := some now } else cp) }
  let activeParticipants := participants.filter (fun p => ¬ p.user_id = userId)
  if activeParticipants.isEmpty then
    { db1 with calls := db1.calls.map (fun c =>
      if c.id = callId && c.initiator_id = userId then
        { c with status := "ended", ended_at := some now } else c) }
  else db1

/-- handleDecline in IncomingCallModal: UPDATE calls SET status = 'declined',
ended_at = now WHERE id = callId.  Under the calls RLS update policy the
statement only reaches rows with initiator_id = decliner; any row it does
reach would violate the calls status CHECK constraint, because 'declined' is
not among its allowed values.  No call_participants row is touched. -/
def handleDecline (db : Db) (callId declinerId now : Nat) : Except DbError Db :=
  let matched := db.calls.filter (fun c =>
    c.id = callId && c.initiator_id = declinerId)
  if matched.isEmpty then .ok db
  else if ¬ callStatusAllowed "declined" then
    .error (.checkViolation "calls_status_check")
  else
    .ok { db with calls := db.calls.map (fun c =>
      if c.id = callId && c.initiator_id = declinerId then
        { c with status := "declined", ended_at := some now } else c) }

/-- The standard base64 alphabet used by btoa and atob. -/
def base64Chars : List Char :=
  ['A', 'B', 'C', 'D', 'E', 'F', 'G', 'H', 'I', 'J', 'K', 'L', 'M',
   'N', 'O', 'P', 'Q', 'R', 'S', 'T', 'U', 'V', 'W', 'X', 'Y', 'Z',
   'a', 'b', 'c', 'd', 'e', 'f', 'g', 'h', 'i', 'j', 'k', 'l', 'm',
   'n', 'o', 'p', 'q', 'r', 's', 't', 'u', 'v', 'w', 'x', 'y', 'z',
   '0', '1', '2', '3', '4', '5', '6', '7', '8', '9', '+', '/']

/-- Alphabet character of a 6-bit value. -/
def sextetChar (n : Nat) : Char := base64Chars.getD n 'A'

/-- 6-bit value of an alphabet character, none for characters outside the
alphabet. -/
def charSextet (c : Char) : Option Nat :=
  base64Chars.indexOf? c

/-- btoa on a byte string: standard base64 with '=' padding. -/
def b64encode : List Nat → List Char
  | [] => []
  | [b0] =>
    [sextetChar (b0 / 4), sextetChar (b0 % 4 * 16), '=', '=']
  | [b0, b1] =>
    [sextetChar (b0 / 4), sextetChar (b0 % 4 * 16 + b1 / 16),
     sextetChar (b1 % 16 * 4), '=']
  | b0 :: b1 :: b2 :: rest =>
    sextetChar (b0 / 4) :: sextetChar (b0 % 4 * 16 + b1 / 16) ::
    sextetChar (b1 % 16 * 4 + b2 / 64) :: sextetChar (b2 % 64) ::
    b64encode rest

/-- atob back to a byte string, none on malformed input. -/
def b64decode : List Char → Option (List Nat)
  | [] => some []
  | c0 :: c1 :: c2 :: c3 :: rest =>
    match charSextet c0, charSextet c1 with
    | some s0, some s1 =>
      if c2 = '=' then
        if c3 = '=' && rest.isEmpty then some [s0 * 4 + s1 / 16] else none
      else
        match charSextet c2 with
        | some s2 =>
          if c3 = '=' then
            if rest.isEmpty then
              some [s0 * 4 + s1 / 16, s1 % 16 * 16 + s2 / 4]
            else none
          else
            match charSextet c3, b64decode rest with
            | some s3, some bs =>
              some ((s0 * 4 + s1 / 16) :: (s1 % 16 * 16 + s2 / 4) ::
                    (s2 % 4 * 64 + s3) :: bs)
            | _, _ => none
        | none => none
    | _, _ => none
  | _ => none

/-- encryptMessage from src/lib/encryption.ts, over byte strings and
parameterised by the external Web Crypto primitives: `enc key iv data` is
crypto.subtle.encrypt with AES-GCM and `exportKey` is the JWK serialisation of
the symmetric key (a byte string of its JSON text).  The function prepends the
12-byte IV to the ciphertext, base64-encodes the combination as
encryptedContent, and base64-encodes the serialised key itself as
encryptionKeyId. -/
def encryptMessage {Key : Type} (enc : Key → List Nat → List Nat → List Nat)
    (exportKey : Key → List Nat) (key : Key) (iv message : List Nat) :
    List Char × List Char :=
  let data := message
  let encrypted := enc key iv data
  let encryptedArray := iv ++ encrypted
  (b64encode encryptedArray, b64encode (exportKey key))

/-- decryptMessage from src/lib/encryption.ts: decodes the key from
encryptionKeyId alone, splits the first 12 bytes of the decoded content off as
the IV, and decrypts; every failure path is caught and replaced by the
fallback placeholder text. -/
def decryptMessage {Key : Type}
    (dec : Key → List Nat → List Nat → Option (List Nat))
    (importKey : List Nat → Option Key) (fallback : List Nat)
    (encryptedContent encryptionKeyId : List Char) : List Nat :=
  match b64decode encryptionKeyId with
  | none => fallback
  | some keyData =>
    match importKey keyData with
    | none => fallback
    | some symmetricKey =>
      match b64decode encryptedContent with
      | none => fallback
      | some encryptedArray =>
        let iv := encryptedArray.take 12
        let encrypted := encryptedArray.drop 12
        match dec symmetricKey iv encrypted with
        | none => fallback
        | some decrypted => decrypted

/-- Generated ids already present in the tables stay below the id counter,
the invariant gen_random_uuid provides for the real schema (fresh ids never
collide with existing rows). -/
def Db.wellFormed (db : Db) : Bool :=
  db.conversations.all (fun c => c.id < db.nextId) &&
  db.conversation_participants.all (fun p => p.conversation_id < db.nextId)

/-! ## Concrete states for the settled claims -/

/-- A database with no rows. -/
def emptyDb : Db := ⟨[], [], [], [], [], [], [], [], 1⟩

/-- A direct conversation (id 10, creator 1) between users 1 and 2 with one
message, the failing input for the group-admin guards. -/
def dbDirect : Db := { emptyDb with
  conversations := [⟨10, none, "direct", 1⟩],
  conversation_participants := [⟨1, 10, 1⟩, ⟨2, 10, 2⟩],
  messages := [⟨20, 10, 1, "hi"⟩],
  nextId := 21 }

/-- The same population but with conversation 10 a group created by user 1. -/
def dbGroup : Db := { dbDirect with
  conversations := [⟨10, some "g", "group", 1⟩] }

/-- Call 100 on conversation 10, initiated by user 1, active, with active
participants 1 and 2. -/
def dbCall : Db := { emptyDb with
  conversations := [⟨10, none, "direct", 1⟩],
  conversation_participants := [⟨1, 10, 1⟩, ⟨2, 10, 2⟩],
  calls := [⟨100, 10, 1, "active", 0, none, 0⟩],
  call_participants := [⟨40, 100, 1, none⟩, ⟨41, 100, 2, none⟩],
  nextId := 50 }

/-- Message 20 in conversation 10 (participants 1 and 2) already carrying a
reaction with emoji x by user 2; the failing input for the toggle claim. -/
def dbReact : Db := { emptyDb with
  conversations := [⟨10, none, "direct", 1⟩],
  conversation_participants := [⟨1, 10, 1⟩, ⟨2, 10, 2⟩],
  messages := [⟨20, 10, 2, "yo"⟩],
  message_reactions := [⟨30, 20, 2, "x"⟩],
  nextId := 31 }

/-- The state after user 1 adds reaction x to message 20 of dbReact: the row
(20, 1, x) is appended next to user 2's existing (20, 2, x) row. -/
def dbReact1 : Db := { dbReact with
  message_reactions := [⟨30, 20, 2, "x"⟩, ⟨31, 20, 1, "x"⟩],
  nextId := 32 }


/-- Users 1 and 2 are accepted friends; no conversations yet. -/
def dbFriends : Db := { emptyDb with
  friend_requests := [⟨0, 1, 2, "accepted", none⟩], nextId := 40 }

/-- dbFriends after create_friend_conversation has inserted direct
conversation 40 with participants 1 and 2. -/
def dbFriendsConv : Db := { dbFriends with
  conversations := [⟨40, none, "direct", 1⟩],
  conversation_participants := [⟨41, 40, 1⟩, ⟨42, 40, 2⟩],
  nextId := 43 }

/-- The participant rows the create_group_conversation loop generates:
consecutive generated ids starting at start, one row per listed user. -/
def mkParticipantRows : Nat → Nat → List Nat → List ParticipantRow
  | _, _, [] => []
  | start, cid, u :: us => ⟨start, cid, u⟩ :: mkParticipantRows (start + 1) cid us

def dbFiveFriends : Db := { emptyDb with
  friend_requests := [⟨0, 1, 2, "accepted", none⟩, ⟨1, 1, 3, "accepted", none⟩,
    ⟨2, 4, 1, "accepted", none⟩, ⟨3, 1, 5, "accepted", none⟩,
    ⟨4, 6, 1, "accepted", none⟩],
  nextId := 40 }

def dbFiveFriendsGroup : Db := { dbFiveFriends with
  conversations := [⟨40, some "study", "group", 1⟩],
  conversation_participants := [⟨41, 40, 1⟩, ⟨42, 40, 2⟩, ⟨43, 40, 3⟩,
    ⟨44, 40, 4⟩, ⟨45, 40, 5⟩, ⟨46, 40, 6⟩],
  nextId := 47 }

/-- dbCall after participant 2 already left at time 5: only the initiator is
still active. -/
def dbCallBLeft : Db := { dbCall with
  call_participants := [⟨40, 100, 1, none⟩, ⟨41, 100, 2, some 5⟩] }

/-- Profiles alice (1) and bob (2) with one REJECTED request from 2 to 1;
sender 1 asking for username bob is the failing input of the rejected-request
claim. -/
def dbRejected : Db := { emptyDb with
  profiles := [⟨1, "alice"⟩, ⟨2, "bob"⟩],
  friend_requests := [⟨5, 2, 1, "rejected", none⟩],
  nextId := 6 }

/-- A concrete instantiation of the external cipher interface for the
round-trip witness: byte-wise additive cipher, single-byte key serialisation. -/
def encT (k : Nat) (_iv data : List Nat) : List Nat :=
  data.map (fun b => (b + k) % 256)

def decT (k : Nat) (_iv data : List Nat) : Option (List Nat) :=
  some (data.map (fun b => (b + (256 - k % 256)) % 256))

def exportT (k : Nat) : List Nat := [k % 256]

def importT : List Nat → Option Nat
  | [n] => some n
  | _ => none

/-! ## Helper lemmas -/

theorem wellFormed_conv_lt {db : Db} (h : db.wellFormed = true) :
    ∀ c ∈ db.conversations, c.id < db.nextId := by
  have h1 := (Bool.and_eq_true _ _).mp h |>.1
  intro c hc
  simpa using List.all_eq_true.mp h1 c hc

theorem wellFormed_part_lt {db : Db} (h : db.wellFormed = true) :
    ∀ p ∈ db.conversation_participants, p.conversation_id < db.nextId := by
  have h2 := (Bool.and_eq_true _ _).mp h |>.2
  intro p hp
  simpa using List.all_eq_true.mp h2 p hp

theorem anyCongr {α : Type} {p q : α → Bool} :
    ∀ l : List α, (∀ x ∈ l, p x = q x) → l.any p = l.any q := by
  intro l h
  induction l with
  | nil => rfl
  | cons x xs ih =>
    simp only [List.any_cons, h x (by simp)]
    rw [ih (fun y hy => h y (by simp [hy]))]

theorem findCongr {α : Type} {p q : α → Bool} :
    ∀ l : List α, (∀ x ∈ l, p x = q x) → l.find? p = l.find? q := by
  intro l h
  induction l with
  | nil => rfl
  | cons x xs ih =>
    simp only [List.find?_cons, h x (by simp)]
    rw [ih (fun y hy => h y (by simp [hy]))]

theorem bool_and_right_comm (x y z : Bool) : (x && y && z) = (x && z && y) := by
  cases x <;> cases y <;> cases z <;> rfl

/-- A fresh conversation id is participated in by nobody. -/
theorem any_part_fresh {l : List ParticipantRow} {n : Nat} (u : Nat)
    (h : ∀ p ∈ l, p.conversation_id < n) :
    (l.any fun p => p.conversation_id = n && p.user_id = u) = false := by
  rw [List.any_eq_false]
  intro p hp
  have := h p hp
  simp only [Bool.and_eq_true, decide_eq_true_eq, not_and]
  intro he
  omega

/-- The friendship test is symmetric in the two users. -/
theorem isFriendAccepted_symm (db : Db) (a b : Nat) :
    isFriendAccepted db a b = isFriendAccepted db b a := by
  apply anyCongr
  intro r _
  congr 1
  exact Bool.or_comm _ _

/-- The direct-conversation lookup is symmetric in the two users. -/
theorem directConversationLookup_symm (db : Db) (a b : Nat) :
    directConversationLookup db a b = directConversationLookup db b a := by
  apply findCongr
  intro c _
  exact bool_and_right_comm _ _ _


theorem create_none_eq (db : Db) (a b : Nat)
    (hwf : db.wellFormed = true) (hab : a ≠ b)
    (hfr : isFriendAccepted db a b = true)
    (hnone : directConversationLookup db a b = none) :
    create_friend_conversation db a b = .ok ({ db with
      conversations := db.conversations ++ [⟨db.nextId, none, "direct", a⟩],
      conversation_participants := db.conversation_participants ++
        [⟨db.nextId + 1, db.nextId, a⟩, ⟨db.nextId + 2, db.nextId, b⟩],
      nextId := db.nextId + 3 }, db.nextId) := by
  have ha' : ¬ ∃ x ∈ db.conversation_participants,
      x.conversation_id = db.nextId ∧ x.user_id = a := by
    rintro ⟨p, hp, h1, _⟩
    have := wellFormed_part_lt hwf p hp
    omega
  have hb2 : ¬ ∃ x ∈ db.conversation_participants ++
      [({ id := db.nextId + 1, conversation_id := db.nextId,
          user_id := a } : ParticipantRow)],
      x.conversation_id = db.nextId ∧ x.user_id = b := by
    rintro ⟨p, hp, h1, h2⟩
    rcases List.mem_append.mp hp with h | h
    · have := wellFormed_part_lt hwf p h
      omega
    · rw [List.mem_singleton] at h
      subst h
      exact hab h2
  simp [create_friend_conversation, hfr, hnone, insertConversation,
    insertConversationParticipant, conversationTypeAllowed, ha',
    Except.instMonad, Except.bind]
  rw [if_neg hb2]

theorem userParticipates_create (db : Db) (a b cid u : Nat)
    (hlt : cid < db.nextId) :
    userParticipates ({ db with
      conversations := db.conversations ++ [⟨db.nextId, none, "direct", a⟩],
      conversation_participants := db.conversation_participants ++
        [⟨db.nextId + 1, db.nextId, a⟩, ⟨db.nextId + 2, db.nextId, b⟩],
      nextId := db.nextId + 3 }) cid u = userParticipates db cid u := by
  show (db.conversation_participants ++
    [(⟨db.nextId + 1, db.nextId, a⟩ : ParticipantRow),
     (⟨db.nextId + 2, db.nextId, b⟩ : ParticipantRow)]).any
    (fun p => p.conversation_id = cid && p.user_id = u) =
    userParticipates db cid u
  rw [List.any_append]
  have h2 : ([(⟨db.nextId + 1, db.nextId, a⟩ : ParticipantRow),
      (⟨db.nextId + 2, db.nextId, b⟩ : ParticipantRow)].any
      fun p => p.conversation_id = cid && p.user_id = u) = false := by
    simp only [List.any_cons, List.any_nil, Bool.or_false]
    have hne : ¬ (db.nextId = cid) := by omega
    simp [hne]
  rw [h2, Bool.or_false]
  rfl

theorem lookup_after_create (db : Db) (a b : Nat)
    (hwf : db.wellFormed = true)
    (hnone : directConversationLookup db a b = none) :
    directConversationLookup ({ db with
      conversations := db.conversations ++ [⟨db.nextId, none, "direct", a⟩],
      conversation_participants := db.conversation_participants ++
        [⟨db.nextId + 1, db.nextId, a⟩, ⟨db.nextId + 2, db.nextId, b⟩],
      nextId := db.nextId + 3 }) b a = some ⟨db.nextId, none, "direct", a⟩ := by
  unfold directConversationLookup at hnone ⊢
  show (db.conversations ++
    [(⟨db.nextId, none, "direct", a⟩ : ConversationRow)]).find? _ = _
  rw [List.find?_append]
  have h1 : (db.conversations.find? fun c => c.ctype = "direct" &&
      userParticipates ({ db with
        conversations := db.conversations ++ [⟨db.nextId, none, "direct", a⟩],
        conversation_participants := db.conversation_participants ++
          [⟨db.nextId + 1, db.nextId, a⟩, ⟨db.nextId + 2, db.nextId, b⟩],
        nextId := db.nextId + 3 }) c.id b &&
      userParticipates ({ db with
        conversations := db.conversations ++ [⟨db.nextId, none, "direct", a⟩],
        conversation_participants := db.conversation_participants ++
          [⟨db.nextId + 1, db.nextId, a⟩, ⟨db.nextId + 2, db.nextId, b⟩],
        nextId := db.nextId + 3 }) c.id a) = none := by
    rw [List.find?_eq_none]
    intro c hc
    have hlt := wellFormed_conv_lt hwf c hc
    have hold := List.find?_eq_none.mp hnone c hc
    rw [userParticipates_create db a b c.id b hlt,
        userParticipates_create db a b c.id a hlt]
    intro hcontr
    apply hold
    rw [bool_and_right_comm] at hcontr
    exact hcontr
  rw [h1]
  have hpb : userParticipates ({ db with
      conversations := db.conversations ++ [⟨db.nextId, none, "direct", a⟩],
      conversation_participants := db.conversation_participants ++
        [⟨db.nextId + 1, db.nextId, a⟩, ⟨db.nextId + 2, db.nextId, b⟩],
      nextId := db.nextId + 3 }) db.nextId b = true := by
    show (db.conversation_participants ++
      [(⟨db.nextId + 1, db.nextId, a⟩ : ParticipantRow),
       (⟨db.nextId + 2, db.nextId, b⟩ : ParticipantRow)]).any
      (fun p => p.conversation_id = db.nextId && p.user_id = b) = true
    rw [List.any_append]
    simp
  have hpa : userParticipates ({ db with
      conversations := db.conversations ++ [⟨db.nextId, none, "direct", a⟩],
      conversation_participants := db.conversation_participants ++
        [⟨db.nextId + 1, db.nextId, a⟩, ⟨db.nextId + 2, db.nextId, b⟩],
      nextId := db.nextId + 3 }) db.nextId a = true := by
    show (db.conversation_participants ++
      [(⟨db.nextId + 1, db.nextId, a⟩ : ParticipantRow),
       (⟨db.nextId + 2, db.nextId, b⟩ : ParticipantRow)]).any
      (fun p => p.conversation_id = db.nextId && p.user_id = a) = true
    rw [List.any_append]
    simp
  simp [List.find?, hpb, hpa]

theorem insertParticipants_ok (cid : Nat) : ∀ (users : List Nat) (d : Db),
    users.Nodup →
    (∀ u ∈ users, (d.conversation_participants.any
      fun p => p.conversation_id = cid && p.user_id = u) = false) →
    insertParticipants d cid users = .ok { d with
      conversation_participants := d.conversation_participants ++
        mkParticipantRows d.nextId cid users,
      nextId := d.nextId + users.length } := by
  intro users
  induction users with
  | nil =>
    intro d _ _
    show Except.ok d = _
    simp [mkParticipantRows]
  | cons u us ih =>
    intro d hnd hfresh
    have hu := hfresh u (by simp)
    have step : insertConversationParticipant d cid u = .ok { d with
        conversation_participants := d.conversation_participants ++
          [⟨d.nextId, cid, u⟩],
        nextId := d.nextId + 1 } := by
      simp only [insertConversationParticipant]
      rw [if_neg (by simp [hu])]
    have hnd2 : us.Nodup := (List.nodup_cons.mp hnd).2
    have hnotmem : u ∉ us := (List.nodup_cons.mp hnd).1
    have hfresh2 : ∀ v ∈ us, (({ d with
        conversation_participants := d.conversation_participants ++
          [⟨d.nextId, cid, u⟩],
        nextId := d.nextId + 1 } : Db).conversation_participants.any
        fun p => p.conversation_id = cid && p.user_id = v) = false := by
      intro v hv
      show ((d.conversation_participants ++
        [(⟨d.nextId, cid, u⟩ : ParticipantRow)]).any
        fun p => p.conversation_id = cid && p.user_id = v) = false
      rw [List.any_append]
      have hv2 := hfresh v (by simp [hv])
      have : u ≠ v := fun h => hnotmem (h ▸ hv)
      simp [hv2, this]
    have := ih { d with
        conversation_participants := d.conversation_participants ++
          [⟨d.nextId, cid, u⟩],
        nextId := d.nextId + 1 } hnd2 hfresh2
    show (insertConversationParticipant d cid u >>= fun d1 =>
      insertParticipants d1 cid us) = _
    rw [step]
    show insertParticipants _ cid us = _
    rw [this]
    simp only [Except.ok.injEq]
    show ({ d with
      conversation_participants := (d.conversation_participants ++
        [⟨d.nextId, cid, u⟩]) ++ mkParticipantRows (d.nextId + 1) cid us,
      nextId := (d.nextId + 1) + us.length } : Db) = _
    rw [List.append_assoc]
    show ({ d with
      conversation_participants := d.conversation_participants ++
        ([⟨d.nextId, cid, u⟩] ++ mkParticipantRows (d.nextId + 1) cid us),
      nextId := (d.nextId + 1) + us.length } : Db) = _
    congr 1
    simp only [List.length_cons]
    omega


theorem charSextet_sextetChar : ∀ n, n < 64 → charSextet (sextetChar n) = some n := by
  decide

theorem sextetChar_ne_pad : ∀ n, n < 64 → sextetChar n ≠ '=' := by
  decide

theorem b64decode_b64encode : ∀ l : List Nat, (∀ b ∈ l, b < 256) →
    b64decode (b64encode l) = some l := by
  intro l
  induction l using b64encode.induct with
  | case1 =>
    intro _
    rfl
  | case2 b0 =>
    intro h
    have hb0 := h b0 (by simp)
    simp only [b64encode, b64decode]
    rw [charSextet_sextetChar (b0 / 4) (by omega),
      charSextet_sextetChar (b0 % 4 * 16) (by omega)]
    dsimp only
    simp
    omega
  | case3 b0 b1 =>
    intro h
    have hb0 := h b0 (by simp)
    have hb1 := h b1 (by simp)
    simp only [b64encode, b64decode]
    rw [charSextet_sextetChar (b0 / 4) (by omega),
      charSextet_sextetChar (b0 % 4 * 16 + b1 / 16) (by omega)]
    dsimp only
    rw [if_neg (sextetChar_ne_pad (b1 % 16 * 4) (by omega))]
    rw [charSextet_sextetChar (b1 % 16 * 4) (by omega)]
    dsimp only
    simp
    omega
  | case4 b0 b1 b2 rest ih =>
    intro h
    have hb0 := h b0 (by simp)
    have hb1 := h b1 (by simp)
    have hb2 := h b2 (by simp)
    have hrest : ∀ b ∈ rest, b < 256 := fun b hb => h b (by simp [hb])
    simp only [b64encode, b64decode]
    rw [charSextet_sextetChar (b0 / 4) (by omega),
      charSextet_sextetChar (b0 % 4 * 16 + b1 / 16) (by omega)]
    dsimp only
    rw [if_neg (sextetChar_ne_pad (b1 % 16 * 4 + b2 / 64) (by omega))]
    rw [charSextet_sextetChar (b1 % 16 * 4 + b2 / 64) (by omega)]
    dsimp only
    rw [if_neg (sextetChar_ne_pad (b2 % 64) (by omega))]
    rw [charSextet_sextetChar (b2 % 64) (by omega)]
    rw [ih hrest]
    simp
    refine ⟨by omega, by omega, by omega⟩

/-! ## Settled claims -/

/-- C2: deleteGroup (delete_group_conversation).  For a GROUP conversation the
claim holds on the code: a non-creator gets the Forbidden-style raise and the
creator atomically removes participants, messages and the conversation row.
But the guard is written SELECT ... INTO is_group_creator ... WHERE type =
'group' followed by IF NOT is_group_creator: when the conversation is a
direct one (or does not exist) the variable is NULL, plpgsql treats the NULL
condition as false, the raise is skipped, and the function deletes a direct
conversation for ANY caller — contradicting the claim (and the function's own
message, Only group creator can delete the group).  The failing input: user 2,
who created nothing, calls it on direct conversation 10 and every row of the
conversation is deleted. -/
theorem delete_group_conversation_bug :
    delete_group_conversation dbGroup 2 10 =
      .error (.raiseException "Only group creator can delete the group") ∧
    delete_group_conversation dbGroup 1 10 = .ok { dbGroup with
      conversations := [], conversation_participants := [], messages := [] } ∧
    delete_group_conversation dbDirect 2 10 = .ok { dbDirect with
      conversations := [], conversation_participants := [], messages := [] } := by
  refine ⟨by rfl, by rfl, by rfl⟩

/-- C3: block (block_user).  The function upserts status = 'blocked' into
friend_requests, but that table is created with CHECK (status IN ('pending',
'accepted', 'rejected')) and no migration ever adds 'blocked' to the list, so
both the UPDATE path (pair row present) and the INSERT path (no row) violate
the CHECK constraint and the call aborts with no row written — the claimed
upsert-to-blocked never happens for any pair of users. -/
theorem block_user_check_violation :
    block_user emptyDb 1 2 10 =
      .error (.checkViolation "friend_requests_status_check") ∧
    block_user { emptyDb with
        friend_requests := [⟨0, 1, 2, "accepted", none⟩], nextId := 1 } 1 2 10 =
      .error (.checkViolation "friend_requests_status_check") := by
  refine ⟨by rfl, by rfl⟩

/-- C5: kickMember (kick_group_member).  On a GROUP conversation the code
matches the claim: a non-creator gets the raise, the creator cannot kick
themselves, and otherwise the target's participant row is removed.  But the
creator guard has the same SELECT INTO / IF NOT NULL slip as
delete_group_conversation: on a direct conversation the check variable is
NULL, the raise is skipped, and ANY caller (user 3 here, not even a
participant) removes the target's participant row instead of failing. -/
theorem kick_group_member_bug :
    kick_group_member dbGroup 2 10 2 =
      .error (.raiseException "Only group creator can kick members") ∧
    kick_group_member dbGroup 1 10 1 =
      .error (.raiseException "Group creator cannot kick themselves") ∧
    kick_group_member dbGroup 1 10 2 = .ok { dbGroup with
      conversation_participants := [⟨1, 10, 1⟩] } ∧
    kick_group_member dbDirect 3 10 2 = .ok { dbDirect with
      conversation_participants := [⟨1, 10, 1⟩] } := by
  refine ⟨by rfl, by rfl, by rfl, by rfl⟩

/-- C7: decline (handleDecline).  The client issues UPDATE calls SET
status = 'declined', ended_at = now, but the only update policy on calls is
Users can update calls they initiated (auth.uid() = initiator_id), so the
decliner — by the claim a non-participant, hence not the initiator — matches
no row and the call keeps status 'active' with no ended timestamp; and even
the initiator could not produce the claimed state, because 'declined' is not
among the values allowed by the calls status CHECK constraint.  No
call_participants row is touched on any path (the state is returned
unchanged), which is the one part of the claim the code satisfies. -/
theorem handleDecline_bug :
    handleDecline dbCall 100 2 9 = .ok dbCall ∧
    handleDecline dbCall 100 1 9 =
      .error (.checkViolation "calls_status_check") := by
  refine ⟨by rfl, by rfl⟩

/-- C9: react (addReaction).  The claim describes toggle semantics keyed on
the (message, user, emoji) row, and that is what the code's own comments say
(Check if user already reacted with this emoji / Remove reaction if it
already exists).  But the client checks its GROUPED reaction state, which
keeps only the first row's user_id per emoji: when another user reacted with
the same emoji first, the current user's own row is invisible to the check,
so the second application attempts a duplicate insert, hits
UNIQUE(message_id, user_id, emoji), and leaves the row in place instead of
removing it.  When the user's row is the first with that emoji the toggle
works, and two different emojis from one user do produce two independent
rows. -/
theorem addReaction_toggle_bug :
    addReaction dbReact 20 1 "x" = (.added, dbReact1) ∧
    addReaction dbReact1 20 1 "x" =
      (.failed (.uniqueViolation "message_reactions_message_id_user_id_emoji_key"),
       dbReact1) ∧
    (let once := addReaction { dbReact with message_reactions := [] } 20 1 "x"
     (addReaction once.2 20 1 "x").2.message_reactions = []) ∧
    (let d1 := (addReaction dbReact1 20 1 "y").2
     ⟨31, 20, 1, "x"⟩ ∈ d1.message_reactions ∧
     ⟨32, 20, 1, "y"⟩ ∈ d1.message_reactions) := by
  refine ⟨by rfl, by rfl, by rfl, by decide, by decide⟩

/-- C1: getOrCreateDirect (create_friend_conversation).  For all states with
fresh-id integrity and distinct users a and b: with no accepted friend request
between a and b in either direction the call fails with the NotFriends raise;
when they are friends and the lookup finds a direct conversation containing
both, that conversation is an existing direct conversation with both as
participants and its id is returned with the state unchanged (no new row);
when no direct conversation contains both, exactly one conversation row
(type direct, creator a) and the two participant rows are inserted
atomically; and any successful call followed by a call from the other side
returns the same conversation id on the same state. -/
theorem create_friend_conversation_spec (db : Db) (a b : Nat)
    (hwf : db.wellFormed = true) (hab : a ≠ b) :
    (isFriendAccepted db a b = false →
      create_friend_conversation db a b =
        .error (.raiseException "Users are not friends")) ∧
    (isFriendAccepted db a b = true →
      (∀ c, directConversationLookup db a b = some c →
        c ∈ db.conversations ∧ c.ctype = "direct" ∧
        userParticipates db c.id a = true ∧ userParticipates db c.id b = true ∧
        create_friend_conversation db a b = .ok (db, c.id)) ∧
      (directConversationLookup db a b = none →
        (∀ c ∈ db.conversations, ¬(c.ctype = "direct" ∧
          userParticipates db c.id a = true ∧
          userParticipates db c.id b = true)) ∧
        create_friend_conversation db a b = .ok ({ db with
          conversations := db.conversations ++ [⟨db.nextId, none, "direct", a⟩],
          conversation_participants := db.conversation_participants ++
            [⟨db.nextId + 1, db.nextId, a⟩, ⟨db.nextId + 2, db.nextId, b⟩],
          nextId := db.nextId + 3 }, db.nextId))) ∧
    (∀ db2 cid, create_friend_conversation db a b = .ok (db2, cid) →
      create_friend_conversation db2 b a = .ok (db2, cid)) := by
  refine ⟨?_, ?_, ?_⟩
  · intro hfr
    simp [create_friend_conversation, hfr]
  · intro hfr
    refine ⟨?_, ?_⟩
    · intro c hc
      have hmem := List.mem_of_find?_eq_some hc
      have hpred := List.find?_some hc
      simp only [Bool.and_eq_true, decide_eq_true_eq] at hpred
      obtain ⟨⟨h1, h2⟩, h3⟩ := hpred
      exact ⟨hmem, h1, h2, h3, by simp [create_friend_conversation, hfr, hc]⟩
    · intro hnone
      refine ⟨?_, create_none_eq db a b hwf hab hfr hnone⟩
      intro c hcmem hcontr
      obtain ⟨h1, h2, h3⟩ := hcontr
      have := List.find?_eq_none.mp hnone c hcmem
      simp [h1, h2, h3] at this
  · intro db2 cid hok
    by_cases hfr : isFriendAccepted db a b = true
    · cases hl : directConversationLookup db a b with
      | some c =>
        simp [create_friend_conversation, hfr, hl] at hok
        obtain ⟨hdb, hcid⟩ := hok
        subst hdb
        subst hcid
        have hfr2 : isFriendAccepted db b a = true := by
          rw [← isFriendAccepted_symm]
          exact hfr
        have hl2 : directConversationLookup db b a = some c := by
          rw [← directConversationLookup_symm]
          exact hl
        simp [create_friend_conversation, hfr2, hl2]
      | none =>
        have heq := create_none_eq db a b hwf hab hfr hl
        rw [heq] at hok
        simp only [Except.ok.injEq, Prod.mk.injEq] at hok
        obtain ⟨hdb, hcid⟩ := hok
        subst hdb
        subst hcid
        have hlook := lookup_after_create db a b hwf hl
        have hfr2 : isFriendAccepted ({ db with
            conversations := db.conversations ++
              [⟨db.nextId, none, "direct", a⟩],
            conversation_participants := db.conversation_participants ++
              [⟨db.nextId + 1, db.nextId, a⟩, ⟨db.nextId + 2, db.nextId, b⟩],
            nextId := db.nextId + 3 }) b a = true := by
          rw [← isFriendAccepted_symm]
          exact hfr
        simp [create_friend_conversation, hfr2, hlook]
    · have hfrf : isFriendAccepted db a b = false := by
        cases h : isFriendAccepted db a b
        · rfl
        · exact absurd h hfr
      simp [create_friend_conversation, hfrf] at hok


theorem create_friend_conversation_spec_witness :
    create_friend_conversation dbFriends 1 2 = .ok (dbFriendsConv, 40) ∧
    create_friend_conversation dbFriendsConv 2 1 = .ok (dbFriendsConv, 40) ∧
    create_friend_conversation dbFriends 1 3 =
      .error (.raiseException "Users are not friends") := by
  have h := create_friend_conversation_spec dbFriends 1 2 (by decide)
    (by decide)
  have h3 := create_friend_conversation_spec dbFriends 1 3 (by decide)
    (by decide)
  have hcr := ((h.2.1 (by decide)).2 (by decide)).2
  exact ⟨hcr, h.2.2 dbFriendsConv 40 hcr, h3.1 (by decide)⟩

/-- C4 counterexample, two facets of the original claim refuted.  First, the
claim says createGroup succeeds for EVERY list of exactly 5 ids that are all
accepted friends of the creator: the list [2, 2, 2, 2, 2] has 5 ids, every
one an accepted friend of creator 1, yet the call fails — the
participant-insertion loop inserts the same (conversation, user) pair twice
and hits UNIQUE(conversation_id, user_id), aborting the whole transaction.
Second, the claim says a whitespace-only name fails with InvalidInput: but
Postgres trim strips only spaces, so the tab-only name is kept as-is, the
emptiness check passes, and the group is created with the tab as its name. -/
theorem create_group_duplicate_friend_cex :
    (∀ f ∈ [2, 2, 2, 2, 2], isFriendAccepted dbFriends 1 f = true) ∧
    List.length [2, 2, 2, 2, 2] = 5 ∧
    create_group_conversation dbFriends 1 "g" [2, 2, 2, 2, 2] =
      .error (.uniqueViolation
        "conversation_participants_conversation_id_user_id_key") ∧
    create_group_conversation dbFriends 1 "\t" [2] = .ok ({ dbFriends with
      conversations := [⟨40, some "\t", "group", 1⟩],
      conversation_participants := [⟨41, 40, 1⟩, ⟨42, 40, 2⟩],
      nextId := 43 }, 40) := by
  refine ⟨by decide, by rfl, by rfl, by rfl⟩

/-- C4 as amended: createGroup (create_group_conversation) fails with an
InvalidInput-style raise when the name is empty or consists only of spaces
(Postgres trim strips spaces, not all whitespace, so a tab-only name is
accepted), when the friend list is empty, or when it has more than 5 ids;
fails with the NotFriends raise when some listed id is not an accepted friend
of the creator; and with at most 5 DISTINCT ids, all accepted friends and
none equal to the creator, it creates one group conversation whose
participants are the creator plus all listed friends, in one atomic unit
(on a well-formed state). -/
theorem create_group_conversation_spec (db : Db) (creator : Nat)
    (name : String) (ids : List Nat) :
    (sqlTrim name = "" → create_group_conversation db creator name ids =
      .error (.raiseException "Group name cannot be empty")) ∧
    (sqlTrim name ≠ "" → ids = [] → create_group_conversation db creator name ids =
      .error (.raiseException "At least one friend must be selected")) ∧
    (sqlTrim name ≠ "" → ids ≠ [] → 5 < ids.length →
      create_group_conversation db creator name ids =
        .error (.raiseException "Maximum 5 friends allowed")) ∧
    (sqlTrim name ≠ "" → ids ≠ [] → ids.length ≤ 5 →
      (∃ f ∈ ids, isFriendAccepted db creator f = false) →
      create_group_conversation db creator name ids =
        .error (.raiseException "Selected user is not a friend")) ∧
    (db.wellFormed = true → sqlTrim name ≠ "" → ids ≠ [] → ids.length ≤ 5 →
      (∀ f ∈ ids, isFriendAccepted db creator f = true) →
      ids.Nodup → creator ∉ ids →
      create_group_conversation db creator name ids = .ok ({ db with
        conversations := db.conversations ++
          [⟨db.nextId, some (sqlTrim name), "group", creator⟩],
        conversation_participants := db.conversation_participants ++
          mkParticipantRows (db.nextId + 1) db.nextId (creator :: ids),
        nextId := db.nextId + (2 + ids.length) }, db.nextId)) := by
  refine ⟨?_, ?_, ?_, ?_, ?_⟩
  · intro h
    simp [create_group_conversation, h]
  · intro h1 h2
    subst h2
    simp [create_group_conversation, h1]
  · intro h1 h2 h3
    have hne : ids.isEmpty = false := by
      cases ids
      · exact absurd rfl h2
      · rfl
    simp [create_group_conversation, h1, hne, h3]
  · intro h1 h2 h3 h4
    have hne : ids.isEmpty = false := by
      cases ids
      · exact absurd rfl h2
      · rfl
    have hany : (ids.any fun f => ¬ isFriendAccepted db creator f) = true := by
      rw [List.any_eq_true]
      obtain ⟨f, hf, hnf⟩ := h4
      exact ⟨f, hf, by simp [hnf]⟩
    have hlen : ¬ (5 < ids.length) := by omega
    simp [create_group_conversation, h1, hne, hlen, hany]
    intro hall
    obtain ⟨f, hf, hnf⟩ := h4
    rw [hall f hf] at hnf
    simp at hnf
  · intro hwf h1 h2 h3 hfr hnd hcm
    have hne : ids.isEmpty = false := by
      cases ids
      · exact absurd rfl h2
      · rfl
    have hlen : ¬ (5 < ids.length) := by omega
    have hany : (ids.any fun f => ¬ isFriendAccepted db creator f) = false := by
      rw [List.any_eq_false]
      intro f hf
      simp [hfr f hf]
    have hfreshC : ¬ ∃ x ∈ db.conversation_participants,
        x.conversation_id = db.nextId ∧ x.user_id = creator := by
      rintro ⟨p, hp, hc, _⟩
      have := wellFormed_part_lt hwf p hp
      omega
    have hip := insertParticipants_ok db.nextId ids ({ db with
      conversations := db.conversations ++
        [⟨db.nextId, some (sqlTrim name), "group", creator⟩],
      conversation_participants := db.conversation_participants ++
        [⟨db.nextId + 1, db.nextId, creator⟩],
      nextId := db.nextId + 2 } : Db) hnd (by
        intro v hv
        show ((db.conversation_participants ++
          [(⟨db.nextId + 1, db.nextId, creator⟩ : ParticipantRow)]).any
          fun p => p.conversation_id = db.nextId && p.user_id = v) = false
        rw [List.any_append]
        have hv2 : (db.conversation_participants.any
            fun p => p.conversation_id = db.nextId && p.user_id = v) = false := by
          rw [List.any_eq_false]
          intro p hp
          have := wellFormed_part_lt hwf p hp
          simp only [Bool.and_eq_true, decide_eq_true_eq, not_and]
          intro he
          omega
        have hcv : creator ≠ v := fun h => hcm (h ▸ hv)
        simp [hv2, hcv])
    have hanyF : ¬ ∃ x ∈ ids, isFriendAccepted db creator x = false := by
      rintro ⟨f, hf, hnf⟩
      rw [hfr f hf] at hnf
      simp at hnf
    simp [create_group_conversation, h1, hne, hlen, hanyF, hfreshC,
      insertConversation, conversationTypeAllowed,
      insertConversationParticipant, Except.instMonad, Except.bind, hip,
      mkParticipantRows, List.append_assoc, Nat.add_assoc]


theorem create_group_conversation_spec_witness :
    create_group_conversation dbFiveFriends 1 "study" [2, 3, 4, 5, 6] =
      .ok (dbFiveFriendsGroup, 40) ∧
    create_group_conversation dbFiveFriends 1 "study" [2, 3, 4, 5, 6, 7] =
      .error (.raiseException "Maximum 5 friends allowed") := by
  have h := create_group_conversation_spec dbFiveFriends 1 "study"
    [2, 3, 4, 5, 6]
  have h6 := create_group_conversation_spec dbFiveFriends 1 "study"
    [2, 3, 4, 5, 6, 7]
  refine ⟨?_, h6.2.2.1 (by decide) (by decide) (by decide)⟩
  exact h.2.2.2.2 (by decide) (by decide) (by decide) (by decide)
    (by decide) (by decide) (by decide)

/-- C6 counterexample: the claim traces its own scenario — initiator 1 leaves
at time 5 (call stays active as 2 is present, which the code does satisfy),
then 2 leaves at time 9 emptying the active set, after which the claim says
the call transitions to ended with ended timestamp 9 and duration 9 - 0.
The code instead leaves the call row completely unchanged (status active, no
ended timestamp, duration 0): the status update is filtered by the calls RLS
policy to rows initiated by the leaver, and 2 is not the initiator.  The last
conjunct shows that even when the initiator is the last leaver (transition
does happen) duration_seconds stays 0 rather than ended minus started,
because endCall never writes it. -/
theorem endCall_last_leaver_cex :
    (endCall dbCall 100 1 5).calls = [⟨100, 10, 1, "active", 0, none, 0⟩] ∧
    (endCall (endCall dbCall 100 1 5) 100 2 9).calls =
      [⟨100, 10, 1, "active", 0, none, 0⟩] ∧
    (endCall (endCall dbCall 100 1 5) 100 2 9).call_participants =
      [⟨40, 100, 1, some 5⟩, ⟨41, 100, 2, some 9⟩] ∧
    (endCall (endCall dbCall 100 2 5) 100 1 9).calls =
      [⟨100, 10, 1, "ended", 0, some 9, 0⟩] := by
  refine ⟨by rfl, by rfl, by rfl, by rfl⟩

/-- C6 as amended: when a participant leaves (endCall), their CallParticipant
rows for the call get the left timestamp and other rows are untouched; if
another active (left-timestamp-null) participant remains, the calls table is
unchanged (the call stays active); if none remains, the status-ended update
reaches exactly the call rows initiated by the leaver — such a row becomes
status ended with the ended timestamp and an UNCHANGED duration_seconds (no
duration is computed) — and when the leaver is not the initiator the call row
stays as it was. -/
theorem endCall_spec (db : Db) (callId userId now : Nat) :
    (∀ cp ∈ db.call_participants, cp.call_id = callId → cp.user_id = userId →
      ({ cp with left_at := some now } : CallParticipantRow) ∈
        (endCall db callId userId now).call_participants) ∧
    (∀ cp ∈ db.call_participants, ¬(cp.call_id = callId ∧ cp.user_id = userId) →
      cp ∈ (endCall db callId userId now).call_participants) ∧
    ((∃ cp ∈ db.call_participants, cp.call_id = callId ∧ cp.left_at = none ∧
        cp.user_id ≠ userId) →
      (endCall db callId userId now).calls = db.calls) ∧
    ((∀ cp ∈ db.call_participants, cp.call_id = callId → cp.left_at = none →
        cp.user_id = userId) →
      ∀ c ∈ db.calls, c.id = callId →
        (c.initiator_id = userId →
          ({ c with status := "ended", ended_at := some now } : CallRow) ∈
            (endCall db callId userId now).calls) ∧
        (c.initiator_id ≠ userId →
          c ∈ (endCall db callId userId now).calls)) := by
  have hcp : (endCall db callId userId now).call_participants =
      db.call_participants.map (fun cp =>
        if cp.call_id = callId && cp.user_id = userId then
          { cp with left_at := some now } else cp) := by
    unfold endCall
    dsimp only
    split <;> rfl
  refine ⟨?_, ?_, ?_, ?_⟩
  · intro cp hmem h1 h2
    rw [hcp]
    exact List.mem_map.mpr ⟨cp, hmem, by simp [h1, h2]⟩
  · intro cp hmem h2
    rw [hcp]
    refine List.mem_map.mpr ⟨cp, hmem, if_neg ?_⟩
    intro hb
    simp only [Bool.and_eq_true, decide_eq_true_eq] at hb
    exact h2 hb
  · rintro ⟨cp, hmem, h1, h2, h3⟩
    have hmm : cp ∈ (fetchActiveParticipants db callId).filter
        (fun p => ¬ p.user_id = userId) := by
      refine List.mem_filter.mpr ⟨?_, by simp [h3]⟩
      exact List.mem_filter.mpr ⟨hmem, by simp [h1, h2]⟩
    have hne : (((fetchActiveParticipants db callId).filter
        fun p => ¬ p.user_id = userId).isEmpty) = false := by
      cases hE : (((fetchActiveParticipants db callId).filter
          fun p => ¬ p.user_id = userId).isEmpty)
      · rfl
      · rw [List.isEmpty_iff] at hE
        rw [hE] at hmm
        cases hmm
    unfold endCall
    dsimp only
    rw [hne]
    simp
  · intro hall c hc hid
    have hempty : (((fetchActiveParticipants db callId).filter
        fun p => ¬ p.user_id = userId).isEmpty) = true := by
      rw [List.isEmpty_iff, List.filter_eq_nil_iff]
      intro p hp
      have hp2 := List.mem_filter.mp hp
      simp only [Bool.and_eq_true, decide_eq_true_eq] at hp2
      have := hall p hp2.1 hp2.2.1 hp2.2.2
      simp [this]
    constructor
    · intro hinit
      unfold endCall
      dsimp only
      rw [hempty]
      show _ ∈ (db.calls.map fun c0 =>
        if c0.id = callId && c0.initiator_id = userId then
          { c0 with status := "ended", ended_at := some now } else c0)
      exact List.mem_map.mpr ⟨c, hc, by simp [hid, hinit]⟩
    · intro hinit
      unfold endCall
      dsimp only
      rw [hempty]
      show _ ∈ (db.calls.map fun c0 =>
        if c0.id = callId && c0.initiator_id = userId then
          { c0 with status := "ended", ended_at := some now } else c0)
      refine List.mem_map.mpr ⟨c, hc, if_neg ?_⟩
      intro hb
      simp only [Bool.and_eq_true, decide_eq_true_eq] at hb
      exact hinit hb.2

theorem endCall_spec_witness :
    (⟨100, 10, 1, "ended", 0, some 9, 0⟩ : CallRow) ∈
      (endCall dbCallBLeft 100 1 9).calls ∧
    (⟨40, 100, 1, some 9⟩ : CallParticipantRow) ∈
      (endCall dbCallBLeft 100 1 9).call_participants := by
  have h := endCall_spec dbCallBLeft 100 1 9
  refine ⟨?_, ?_⟩
  · exact ((h.2.2.2 (by decide) ⟨100, 10, 1, "active", 0, none, 0⟩
      (by decide) rfl).1) rfl
  · exact h.1 ⟨40, 100, 1, none⟩ (by decide) rfl rfl

/-- C8 counterexample: the claim says a previously rejected request does not
prevent a new one — with only a rejected request between the pair and
sender distinct from receiver it requires a pending insert.  The client
filters the existing-request query by the pair alone with NO status filter,
so the rejected row triggers the Request-exists (Conflict) path and nothing
is inserted. -/
theorem sendFriendRequest_rejected_cex :
    (∀ r ∈ dbRejected.friend_requests, r.status = "rejected") ∧
    sendFriendRequest dbRejected 1 "bob" = (.requestExists, dbRejected) := by
  refine ⟨by decide, by rfl⟩

/-- C8 as amended: for a resolvable receiver username, sendFriendRequest
fails with Conflict exactly when ANY friend request — regardless of status,
including rejected — already exists between the pair in either direction
(states with at most one row per pair, the invariant the unique constraint
and this check maintain) or when sender equals receiver; otherwise it inserts
one pending request with the sender as owner. -/
theorem sendFriendRequest_spec (db : Db) (sender : Nat) (uname : String)
    (target : ProfileRow)
    (hfind : db.profiles.find? (fun p => p.username = strTrim uname) =
      some target) :
    (target.id = sender → sendFriendRequest db sender uname = (.selfAdd, db)) ∧
    (target.id ≠ sender → (pairRequests db sender target.id).length = 1 →
      sendFriendRequest db sender uname = (.requestExists, db)) ∧
    (target.id ≠ sender → pairRequests db sender target.id = [] →
      sendFriendRequest db sender uname = (.success, { db with
        friend_requests := db.friend_requests ++
          [⟨db.nextId, sender, target.id, "pending", none⟩],
        nextId := db.nextId + 1 })) := by
  refine ⟨?_, ?_, ?_⟩
  · intro h
    simp [sendFriendRequest, hfind, h]
  · intro h1 h2
    simp [sendFriendRequest, hfind, h1, h2]
  · intro h1 h2
    have hud : (db.friend_requests.any
        fun r => r.sender_id = sender && r.receiver_id = target.id) = false := by
      rw [List.any_eq_false]
      intro r hr
      have hall := List.filter_eq_nil_iff.mp h2 r hr
      simp only [Bool.or_eq_true, Bool.and_eq_true, decide_eq_true_eq,
        not_or, not_and] at hall
      simp only [Bool.and_eq_true, decide_eq_true_eq, not_and]
      exact hall.1
    simp [sendFriendRequest, hfind, h1, h2, insertFriendRequest,
      friendRequestStatusAllowed, hud]

theorem sendFriendRequest_spec_witness :
    sendFriendRequest dbRejected 2 "bob" = (.selfAdd, dbRejected) ∧
    sendFriendRequest dbRejected 1 "bob" = (.requestExists, dbRejected) ∧
    sendFriendRequest { dbRejected with friend_requests := [] } 1 "bob" =
      (.success, { dbRejected with
        friend_requests := [⟨6, 1, 2, "pending", none⟩], nextId := 7 }) := by
  have h2 := sendFriendRequest_spec dbRejected 2 "bob" ⟨2, "bob"⟩ (by rfl)
  have h1 := sendFriendRequest_spec dbRejected 1 "bob" ⟨2, "bob"⟩ (by rfl)
  have h0 := sendFriendRequest_spec { dbRejected with friend_requests := [] }
    1 "bob" ⟨2, "bob"⟩ (by rfl)
  exact ⟨h2.1 rfl, h1.2.1 (by decide) (by rfl), h0.2.2 (by decide) (by rfl)⟩

/-- C10: encryption round trip.  For any cipher (enc, dec) and key codec
(exportKey, importKey) satisfying the Web Crypto contracts at the given
inputs — a 12-byte IV, byte-valued outputs, import inverting export and dec
inverting enc — decryptMessage applied to the (encryptedContent,
encryptionKeyId) pair produced by encryptMessage returns the original
message: the AES-GCM key is serialised into encryptionKeyId itself, so the
pair alone suffices to decrypt (no out-of-band key, hence no secrecy against
a holder of the stored row). -/
theorem encryptMessage_decryptMessage_roundtrip {Key : Type}
    (enc : Key → List Nat → List Nat → List Nat)
    (dec : Key → List Nat → List Nat → Option (List Nat))
    (exportKey : Key → List Nat) (importKey : List Nat → Option Key)
    (fallback : List Nat) (key : Key) (iv message : List Nat)
    (hiv : iv.length = 12)
    (hivb : ∀ b ∈ iv, b < 256)
    (hencb : ∀ b ∈ enc key iv message, b < 256)
    (hkeyb : ∀ b ∈ exportKey key, b < 256)
    (hik : importKey (exportKey key) = some key)
    (hdec : dec key iv (enc key iv message) = some message) :
    decryptMessage dec importKey fallback
      (encryptMessage enc exportKey key iv message).1
      (encryptMessage enc exportKey key iv message).2 = message := by
  have hkey := b64decode_b64encode (exportKey key) hkeyb
  have hcontent := b64decode_b64encode (iv ++ enc key iv message) (by
    intro b hb
    rcases List.mem_append.mp hb with hmem | hmem
    · exact hivb b hmem
    · exact hencb b hmem)
  have ht : (iv ++ enc key iv message).take 12 = iv := by
    rw [← hiv]
    simp
  have hd : (iv ++ enc key iv message).drop 12 = enc key iv message := by
    rw [← hiv]
    simp
  simp only [encryptMessage, decryptMessage]
  rw [hkey]
  dsimp only
  rw [hik]
  dsimp only
  rw [hcontent]
  dsimp only
  rw [ht, hd, hdec]

theorem encryptMessage_decryptMessage_roundtrip_witness :
    importT (exportT 3) = some 3 ∧
    decT 3 [0, 1, 2, 3, 4, 5, 6, 7, 8, 9, 10, 11]
        (encT 3 [0, 1, 2, 3, 4, 5, 6, 7, 8, 9, 10, 11] [104, 105]) =
      some [104, 105] ∧
    decryptMessage decT importT []
      (encryptMessage encT exportT 3
        [0, 1, 2, 3, 4, 5, 6, 7, 8, 9, 10, 11] [104, 105]).1
      (encryptMessage encT exportT 3
        [0, 1, 2, 3, 4, 5, 6, 7, 8, 9, 10, 11] [104, 105]).2 = [104, 105] := by
  refine ⟨by decide, by decide,
    encryptMessage_decryptMessage_roundtrip encT decT exportT importT [] 3
      [0, 1, 2, 3, 4, 5, 6, 7, 8, 9, 10, 11] [104, 105] (by decide) (by decide)
      (by decide) (by decide) (by decide) (by decide)⟩

end PureConverse
